import Mathlib

/-! ## Verification of the Matrix memory-augmented agent runtime

Shallow embedding of the core decision logic of the Matrix repository:

* `src/core/brain/tools/definitions/memory/memory_operation.ts`
  (the knowledge-memory operation tool: similarity decisions, LLM decisions,
  the confidence gate, tag extraction, id generation, persistence),
* `src/core/brain/llm/services/ollama.ts`
  (the provider retry helper and the tool-calling loop),
* `src/core/session/coversation-session.ts`
  (session serialize/deserialize and the background memory job of `run()`).

Numbers that are IEEE doubles in the source are modelled as rationals `ℚ`;
all score and confidence arithmetic in the source is on small decimal
constants, where double and rational arithmetic agree.  JavaScript `x || y`
on numbers (`0`/`NaN` falsy) and on strings (`""` falsy) is modelled
explicitly where it occurs.
-/

namespace Matrix

/-! ## Data model: memory actions (memory_operation.ts, `MemoryAction`) -/

/-- The four memory events of the `MemoryAction.event` union type. -/
inductive MemoryEvent where
  | ADD
  | UPDATE
  | DELETE
  | NONE
  deriving Repr, DecidableEq

/-- Model of `MemoryAction` of memory_operation.ts: optional fields of the TS object
are `Option`s (a field omitted by a conditional spread is `none`). -/
structure MemoryAction where
  id : ℕ
  text : String
  event : MemoryEvent
  tags : List String
  old_memory : Option String := none
  code_pattern : Option String := none
  confidence : ℚ
  deriving Repr, DecidableEq

/-- A vector-store search result as consumed by the tool: `score`,
`payload.data`, `text`, `id` and `payload.id` may each be absent. -/
structure SearchHit where
  score : Option ℚ := none
  payloadData : Option String := none
  text : Option String := none
  id : Option ℕ := none
  payloadId : Option ℕ := none
  deriving Repr, DecidableEq

/-- JavaScript `a || b` for an optional string `a`: `undefined` and the
empty string are falsy. -/
def jsOrStr (a : Option String) (b : String) : String :=
  match a with
  | some s => if s = "" then b else s
  | none => b

/-- JS `result.score || 0` — a missing score reads as `0`
(`0 || 0 = 0`, so `getD` is exact). -/
def hitScore (h : SearchHit) : ℚ :=
  h.score.getD 0

/-- JS `mostSimilar.payload?.data || mostSimilar.text || ''`. -/
def hitText (h : SearchHit) : String :=
  jsOrStr h.payloadData (jsOrStr h.text "")

/-- JavaScript truthiness guard `...(codePattern && { code_pattern })`:
an empty string is falsy, so the field is dropped. -/
def jsStrOpt (s : Option String) : Option String :=
  match s with
  | some v => if v = "" then none else some v
  | none => none

/-! ## `generateMemoryId` (memory_operation.ts lines 1245–1258)

`now` is `Date.now()`, `randomSuffix` is `Math.floor(Math.random()*1000)`
and `fallbackRandom` is `Math.floor(Math.random()*333333)` (the value the
dead `vectorId <= 0` branch would use).  All are non-negative integers and
all the arithmetic is exact in doubles, so `ℕ` is a faithful model. -/

def generateMemoryId (now randomSuffix fallbackRandom index : ℕ) : ℕ :=
  let vectorId := 1 + ((now % 300000) * 1000 + randomSuffix + index) % 333333
  if vectorId ≤ 0 then fallbackRandom % 333333 + 1 else vectorId

/-! ## `determineMemoryOperation` (memory_operation.ts lines 1263–1323),
the similarity-only fallback decision. -/

def determineMemoryOperation (fact : String) (similarMemories : List SearchHit)
    (threshold : ℚ) (now randomSuffix fallbackRandom index : ℕ)
    (codePattern : Option String) (tags : List String) : MemoryAction :=
  let factId := generateMemoryId now randomSuffix fallbackRandom index
  match similarMemories with
  | [] =>
      { id := factId, text := fact, event := .ADD, tags := tags,
        confidence := 0.8, code_pattern := jsStrOpt codePattern }
  | mostSimilar :: _ =>
      let similarity := hitScore mostSimilar
      if 0.9 < similarity then
        { id := factId, text := fact, event := .NONE, tags := tags,
          confidence := 0.9, code_pattern := jsStrOpt codePattern }
      else if threshold < similarity ∧ similarity ≤ 0.9 then
        { id := factId, text := fact, event := .UPDATE, tags := tags,
          confidence := 0.75, old_memory := some (hitText mostSimilar),
          code_pattern := jsStrOpt codePattern }
      else
        { id := factId, text := fact, event := .ADD, tags := tags,
          confidence := 0.7, code_pattern := jsStrOpt codePattern }

/-! ## String primitives

Core `String.toLower`/`trim`/`split` are implemented with well-founded
recursion on byte positions and do not reduce in the kernel, so the
JavaScript string operations used by the tool are modelled structurally on
`String.data`.  All strings compared by the tool are ASCII, where
`Char.toLower` agrees with JavaScript `toLowerCase`. -/

/-- JavaScript `s.toLowerCase()`. -/
def toLowerStr (s : String) : String :=
  String.mk (s.data.map Char.toLower)

def listStartsWith : List Char → List Char → Bool
  | _, [] => true
  | [], _ :: _ => false
  | a :: as, b :: bs => a = b && listStartsWith as bs

def listHasSub : List Char → List Char → Bool
  | [], needle => needle.isEmpty
  | a :: t, needle => listStartsWith (a :: t) needle || listHasSub t needle

/-- JavaScript `hay.includes(needle)` (substring containment). -/
def strIncludes (hay needle : String) : Bool :=
  listHasSub hay.data needle.data

/-- JavaScript `s.trim()`. -/
def jsTrim (s : String) : String :=
  String.mk (((s.data.dropWhile Char.isWhitespace).reverse.dropWhile Char.isWhitespace).reverse)

/-- Split into maximal whitespace-free words.  Models JS `s.split(/\s+/)` on
already-trimmed input (the tool only splits trimmed facts, where the two
agree; JS would additionally emit one leading `""` for untrimmed input). -/
def wordsOf (cur : List Char) : List Char → List String
  | [] => if cur = [] then [] else [String.mk cur.reverse]
  | c :: rest =>
      if c.isWhitespace then
        if cur = [] then wordsOf [] rest
        else String.mk cur.reverse :: wordsOf [] rest
      else wordsOf (c :: cur) rest

/-- First-occurrence deduplication: JS `Array.from(new Set(xs))` (a JS `Set`
iterates in insertion order). -/
def dedupFirst (seen : List String) : List String → List String
  | [] => []
  | a :: t => if a ∈ seen then dedupFirst seen t else a :: dedupFirst (a :: seen) t

/-! ## `extractTechnicalTags` (memory_operation.ts lines 1132–1239) -/

def languages : List String :=
  ["javascript", "typescript", "python", "java", "rust", "go", "php", "ruby",
   "swift", "kotlin"]

def frameworks : List String :=
  ["react", "vue", "angular", "svelte", "nextjs", "express", "fastify",
   "django", "flask"]

def tools : List String :=
  ["docker", "kubernetes", "git", "npm", "yarn", "webpack", "vite", "eslint",
   "prettier"]

/-- The raw pushes of `extractTechnicalTags`, in source order.  The three
technology scans test `fact.toLowerCase().includes(x)`; the content-type
scans test the raw `fact.includes(x)`. -/
def tagMatches (fact : String) : List String :=
  let lower := toLowerStr fact
  languages.filter (fun lang => strIncludes lower lang) ++
  frameworks.filter (fun fw => strIncludes lower fw) ++
  tools.filter (fun tool => strIncludes lower tool) ++
  (if strIncludes fact "```" then ["code-block"] else []) ++
  (if strIncludes fact "function" || strIncludes fact "class" ||
      strIncludes fact "const" || strIncludes fact "let" ||
      strIncludes fact "var" then ["programming"] else []) ++
  (if strIncludes fact "/" || strIncludes fact "\\" ||
      strIncludes fact ".js" || strIncludes fact ".ts" ||
      strIncludes fact ".py" then ["file-path"] else []) ++
  (if strIncludes fact "error" || strIncludes fact "exception" ||
      strIncludes fact "failed" || strIncludes fact "bug"
   then ["error-handling"] else []) ++
  (if strIncludes fact "config" || strIncludes fact "setting" ||
      strIncludes fact "option" then ["configuration"] else []) ++
  (if strIncludes fact "api" || strIncludes fact "endpoint" ||
      strIncludes fact "request" || strIncludes fact "response"
   then ["api"] else [])

def extractTechnicalTags (fact : String) : List String :=
  let tags := tagMatches fact
  let tags := if tags = [] then ["general-knowledge"] else tags
  (dedupFirst [] tags).map toLowerStr

/-- Every string `extractTechnicalTags` can ever push. -/
def allTagStrings : List String :=
  languages ++ frameworks ++ tools ++
  ["code-block", "programming", "file-path", "error-handling",
   "configuration", "api", "general-knowledge"]

/-! ## `calculateTextSimilarity` (memory_operation.ts lines 1329–1337) -/

def calculateTextSimilarity (text1 text2 : String) : ℚ :=
  let words1 := dedupFirst [] (wordsOf [] (toLowerStr text1).data)
  let words2 := dedupFirst [] (wordsOf [] (toLowerStr text2).data)
  let intersection := words1.filter (fun word => word ∈ words2)
  let union := dedupFirst [] (words1 ++ words2)
  (intersection.length : ℚ) / (union.length : ℚ)

/-! ## LLM decisions (memory_operation.ts lines 686–777)

`parseLLMDecision` interprets a free-form LLM response string; its output is
abstracted as an environment input `Option RawDecision` (`none` covers a
`directGenerate` transport failure as well as an unparseable response —
`llmDetermineMemoryOperation` throws in both cases and the handler falls
back to the similarity analysis). -/

structure RawDecision where
  operation : String
  confidence : ℚ
  targetMemoryId : Option ℕ
  deriving Repr, DecidableEq

def isValidOperation (operation : String) : Bool :=
  ["ADD", "UPDATE", "DELETE", "NONE"].contains operation

def toMemoryEvent (operation : String) : MemoryEvent :=
  if operation = "ADD" then .ADD
  else if operation = "UPDATE" then .UPDATE
  else if operation = "DELETE" then .DELETE
  else .NONE

/-- Model of `llmDetermineMemoryOperation`: `none` models a thrown error (the caller
falls back to `determineMemoryOperation`). -/
def llmDetermineMemoryOperation (fact : String) (similarMemories : List SearchHit)
    (parsedDecision : Option RawDecision)
    (now randomSuffix fallbackRandom index : ℕ)
    (codePattern : Option String) (tags : List String) : Option MemoryAction :=
  let factId := generateMemoryId now randomSuffix fallbackRandom index
  match parsedDecision with
  | none => none
  | some decision =>
      if ¬ isValidOperation decision.operation then none
      else
        let event := toMemoryEvent decision.operation
        -- JS `decision.confidence || 0.7`: a confidence of 0 is falsy
        let conf := if decision.confidence = 0 then 0.7 else decision.confidence
        -- JS `decision.targetMemoryId || factId`: 0 and null are falsy
        let id0 := match decision.targetMemoryId with
          | some tid => if tid = 0 then factId else tid
          | none => factId
        -- old_memory only for UPDATE with a truthy target that is found
        let oldMemory : Option String :=
          if event = .UPDATE then
            match decision.targetMemoryId with
            | some tid =>
                if tid = 0 then none
                else (similarMemories.find?
                        (fun mem => mem.id = some tid ∨ mem.payloadId = some tid)).map hitText
            | none => none
          else none
        -- final id validation: a non-positive id falls back to the generated id
        let finalId := if id0 = 0 then factId else id0
        some { id := finalId, text := fact, event := event, tags := tags,
               old_memory := oldMemory,
               code_pattern := jsStrOpt codePattern,
               confidence := max 0 (min 1 conf) }

/-! ## The memory-operation tool handler (memory_operation.ts lines 333–681) -/

/-- The option bundle after merging `DEFAULT_OPTIONS` with the caller's
options (handler line 354). -/
structure MemoryOptions where
  similarityThreshold : ℚ
  maxSimilarResults : ℕ
  useLLMDecisions : Bool
  confidenceThreshold : ℚ
  enableDeleteOperations : Bool
  deriving Repr, DecidableEq

def DEFAULT_OPTIONS : MemoryOptions :=
  { similarityThreshold := 0.7, maxSimilarResults := 5, useLLMDecisions := true,
    confidenceThreshold := 0.4, enableDeleteOperations := true }

structure ExistingMemory where
  id : String
  text : String
  deriving Repr, DecidableEq

/-- Environment of one fact: the fact string plus the outcomes of the
effectful calls the handler makes for it.  `codePattern` abstracts
`extractCodePattern` (regex matching; no claim depends on its value). -/
structure FactEnv where
  fact : String
  servicesAvailable : Bool
  embeddingManagerAvailable : Bool
  embedOk : Bool
  searchOk : Bool
  searchResults : List SearchHit
  llmServiceAvailable : Bool
  llmParsedDecision : Option RawDecision
  codePattern : Option String
  now : ℕ
  randomSuffix : ℕ
  fallbackRandom : ℕ
  deriving Repr, DecidableEq

/-- Result of processing one fact in the handler loop: the action pushed to
`memoryActions` (if any) and whether `handleRuntimeFailure` disabled
embeddings globally. -/
structure FactOutcome where
  action : Option MemoryAction
  embeddingsDisabledGlobally : Bool
  deriving Repr, DecidableEq

/-- Confidence gate (handler lines 576–589): an operation below the
threshold is rewritten to NONE. -/
def applyConfidenceGate (opts : MemoryOptions) (a : MemoryAction) : MemoryAction :=
  if a.confidence < opts.confidenceThreshold ∧ a.event ≠ .NONE then
    { a with event := .NONE }
  else a

/-- One iteration of the handler's per-fact loop (lines 423–593). -/
def processFact (opts : MemoryOptions) (existingMemories : List ExistingMemory)
    (index : ℕ) (env : FactEnv) : FactOutcome :=
  let tags := extractTechnicalTags env.fact
  if env.servicesAvailable then
    if ¬ env.embedOk then
      -- lines 442–471: embedding failed; embeddings are disabled globally
      -- (when an embedding manager is in context), an ADD@0.6 fallback
      -- action is constructed, but `continue` skips the confidence gate
      -- and the push, so no action reaches `memoryActions`
      { action := none, embeddingsDisabledGlobally := env.embeddingManagerAvailable }
    else if ¬ env.searchOk then
      -- outer catch, lines 542–558: similarity analysis failed → ADD @ 0.6
      { action := some (applyConfidenceGate opts
          { id := generateMemoryId env.now env.randomSuffix env.fallbackRandom index,
            text := env.fact, event := .ADD, tags := tags, confidence := 0.6,
            code_pattern := jsStrOpt env.codePattern }),
        embeddingsDisabledGlobally := false }
    else
      -- lines 474–479: filter hits by score ≥ similarityThreshold
      let similarMemories :=
        env.searchResults.filter (fun r => opts.similarityThreshold ≤ hitScore r)
      let base :=
        if opts.useLLMDecisions ∧ env.llmServiceAvailable then
          match llmDetermineMemoryOperation env.fact similarMemories
              env.llmParsedDecision env.now env.randomSuffix env.fallbackRandom
              index env.codePattern tags with
          | some a => a
          | none =>
              determineMemoryOperation env.fact similarMemories
                opts.similarityThreshold env.now env.randomSuffix
                env.fallbackRandom index env.codePattern tags
        else
          determineMemoryOperation env.fact similarMemories
            opts.similarityThreshold env.now env.randomSuffix env.fallbackRandom
            index env.codePattern tags
      { action := some (applyConfidenceGate opts base),
        embeddingsDisabledGlobally := false }
  else
    -- lines 559–574: no embedding/vector services → basic analysis
    let isNew := ¬ existingMemories.any
      (fun mem => opts.similarityThreshold < calculateTextSimilarity env.fact mem.text)
    { action := some (applyConfidenceGate opts
        { id := generateMemoryId env.now env.randomSuffix env.fallbackRandom index,
          text := env.fact,
          event := if isNew then .ADD else .NONE, tags := tags,
          confidence := if isNew then 0.7 else 0.5,
          code_pattern := jsStrOpt env.codePattern }),
      embeddingsDisabledGlobally := false }

/-- The `memory` array returned by the handler: valid facts are trimmed and
processed in order; a failing handler returns `memory = []` (lines 366–372,
659–678). -/
def memoryOperationHandler (opts : MemoryOptions)
    (existingMemories : List ExistingMemory) (envs : List FactEnv) :
    List MemoryAction :=
  let validEnvs := (envs.filter (fun e => jsTrim e.fact ≠ "")).map
    (fun e => { e with fact := jsTrim e.fact })
  if validEnvs = [] then []
  else validEnvs.enum.filterMap
    (fun p => (processFact opts existingMemories p.1 p.2).action)

/-! ## Persistence (memory_operation.ts lines 1342–1431) -/

inductive QualitySource where
  | similarity
  | llm
  | heuristic
  deriving Repr, DecidableEq

structure KnowledgePayload where
  id : ℕ
  text : String
  tags : List String
  confidence : ℚ
  event : MemoryEvent
  qualitySource : QualitySource
  code_pattern : Option String := none
  old_memory : Option String := none
  deriving Repr, DecidableEq

/-- Modelled from the spec: `createKnowledgePayload` (payloads.ts, not under
src/) builds the vector-store payload
`{id, text, tags, confidence, event, qualitySource, codePattern?, oldMemory?}`
from its arguments (spec §6, "Vector store payload (knowledge)"). -/
def createKnowledgePayload (id : ℕ) (text : String) (tags : List String)
    (confidence : ℚ) (event : MemoryEvent) (qualitySource : QualitySource)
    (code_pattern old_memory : Option String) : KnowledgePayload :=
  { id := id, text := text, tags := tags, confidence := confidence,
    event := event, qualitySource := qualitySource,
    code_pattern := code_pattern, old_memory := old_memory }

inductive VectorStoreOp where
  | insert (id : ℕ) (payload : KnowledgePayload)
  | update (id : ℕ) (payload : KnowledgePayload)
  deriving Repr, DecidableEq

def VectorStoreOp.payload : VectorStoreOp → KnowledgePayload
  | .insert _ p => p
  | .update _ p => p

/-- Model of `persistMemoryActions`: ADD/UPDATE actions are embedded and written;
an embedding failure skips the action; the payload's `qualitySource` is the
local constant `'heuristic'` (line 1391). -/
def persistMemoryActions (memoryActions : List MemoryAction)
    (embedOk : String → Bool) : List VectorStoreOp :=
  let actionsToProcess := memoryActions.filter
    (fun action => action.event = .ADD ∨ action.event = .UPDATE)
  actionsToProcess.filterMap (fun action =>
    if ¬ embedOk action.text then none
    else
      let qualitySource : QualitySource := .heuristic
      let payload := createKnowledgePayload action.id action.text action.tags
        action.confidence action.event qualitySource
        (jsStrOpt action.code_pattern) (jsStrOpt action.old_memory)
      match action.event with
      | .ADD => some (.insert action.id payload)
      | .UPDATE => some (.update action.id payload)
      | .DELETE => none
      | .NONE => none)

/-! ## OllamaService: `getAIResponseWithRetries` (ollama.ts lines 237–304)

The provider is abstracted as `outcomes : ℕ → AttemptResult`, the outcome of
the API call on each (1-based) attempt.  `emptyMessage` is a response whose
`choices[0]?.message` is missing — the helper throws, and the same catch
block handles it like a transport error. -/

structure OllamaToolCall where
  id : String
  name : String
  arguments : String
  deriving Repr, DecidableEq

structure ChatMessage where
  content : Option String
  tool_calls : List OllamaToolCall
  deriving Repr, DecidableEq

inductive AttemptResult where
  | success (message : ChatMessage)
  | emptyMessage
  | transportError (e : String)
  deriving Repr, DecidableEq

/-- Observable steps of the retry helper: each provider call with the tool
list and tool-choice it carried, and each backoff sleep. -/
inductive RetryEvent where
  | call (tools : List String) (toolChoice : String)
  | wait (ms : ℕ)
  deriving Repr, DecidableEq

def MAX_ATTEMPTS : ℕ := 3

/-- The retry loop body; `attempts` is the count of attempts already made and
`fuel` is `MAX_ATTEMPTS - attempts` (the number of loop iterations the
`while attempts < MAX_ATTEMPTS` guard still allows). -/
def getAIResponseWithRetriesLoop (tools : List String)
    (outcomes : ℕ → AttemptResult) :
    ℕ → ℕ → Except String ChatMessage × List RetryEvent
  | _, 0 => (.error "Failed to get response after maximum retry attempts", [])
  | attempts, fuel + 1 =>
      let attempt := attempts + 1
      let callEv := RetryEvent.call (if attempt = 1 then tools else [])
        (if attempt = 1 then "auto" else "none")
      let onError : String → Except String ChatMessage × List RetryEvent :=
        fun e =>
          if MAX_ATTEMPTS ≤ attempt then (.error e, [callEv])
          else
            let rest := getAIResponseWithRetriesLoop tools outcomes attempt fuel
            (rest.1, callEv :: .wait (500 * attempt) :: rest.2)
      match outcomes attempt with
      | .success m => (.ok m, [callEv])
      | .emptyMessage => onError "Received empty message from Ollama API"
      | .transportError e => onError e

def getAIResponseWithRetries (tools : List String)
    (outcomes : ℕ → AttemptResult) : Except String ChatMessage × List RetryEvent :=
  getAIResponseWithRetriesLoop tools outcomes 0 MAX_ATTEMPTS

/-! ### The tool-call handling loop of `generate` (ollama.ts lines 122–159) -/

/-- Environment of one tool call inside the loop: the call itself, the
outcome of `JSON.parse(toolCall.function.arguments)` (the parsed value is
irrelevant, only success/failure and the error text matter), and the outcome
of `executeTool`. -/
structure ToolCallEnv where
  toolCall : OllamaToolCall
  parse : Except String Unit
  execResult : Except String String
  deriving Repr

inductive ToolResultPayload where
  | errorPayload (e : String)
  | resultPayload (r : String)
  deriving Repr, DecidableEq

/-- Observable steps of the loop: tool-result messages appended to the
context manager, and tool invocations. -/
inductive GenerateEvent where
  | toolResultMsg (toolCallId : String) (toolName : String)
      (payload : ToolResultPayload)
  | toolExecuted (toolName : String)
  deriving Repr, DecidableEq

def GenerateEvent.isToolResultFor (callId : String) : GenerateEvent → Bool
  | .toolResultMsg cid _ _ => cid = callId
  | .toolExecuted _ => false

def handleToolCall (c : ToolCallEnv) : List GenerateEvent :=
  match c.parse with
  | .error e =>
      -- parse failure: append the parse error as a tool result and `continue`
      [.toolResultMsg c.toolCall.id c.toolCall.name
        (.errorPayload ("Failed to parse arguments: " ++ e))]
  | .ok _ =>
      match c.execResult with
      | .ok r =>
          [.toolExecuted c.toolCall.name,
           .toolResultMsg c.toolCall.id c.toolCall.name (.resultPayload r)]
      | .error e =>
          [.toolExecuted c.toolCall.name,
           .toolResultMsg c.toolCall.id c.toolCall.name (.errorPayload e)]

def handleToolCalls (calls : List ToolCallEnv) : List GenerateEvent :=
  (calls.map handleToolCall).flatten

/-! ## ConversationSession (coversation-session.ts): transcript data model
(spec §3, Message) -/

inductive Role where
  | user
  | assistant
  | tool
  | system
  deriving Repr, DecidableEq

structure SessToolCall where
  id : String
  name : String
  arguments : String
  deriving Repr, DecidableEq

structure Msg where
  role : Role
  content : String
  toolCalls : List SessToolCall := []
  toolCallId : Option String := none
  name : Option String := none
  deriving Repr, DecidableEq

/-! ### History provider

Modelled from the spec: the database history provider (§4.3) is not under
src/; per the spec it saves messages to a table keyed by `(sessionId, seq)`,
so for a fixed session id it is an append-only ordered list:
`getHistory` returns the saved messages in order, `saveMessage` appends,
`clearHistory` empties. -/

def providerGetHistory (store : List Msg) : List Msg := store

def providerSaveMessage (store : List Msg) (m : Msg) : List Msg := store ++ [m]

def providerClearHistory (_store : List Msg) : List Msg := []

/-- Modelled from the spec: `ContextManager.restoreHistory`, `setMessages`
and the manual append loop (the three strategies of
`refreshConversationHistory`, coversation-session.ts lines 1394–1445; spec
§4.1/§4.2) each load the provider transcript into the (just cleared)
context manager in order. -/
def refreshedContextMessages (providerAvailable : Bool) (store : List Msg) :
    List Msg :=
  if providerAvailable then providerGetHistory store else []

/-- The serialized record (persistence-types.ts is not under src/; fields
follow spec §3 "HistoryRecord" and the construction at lines 1578–1593). -/
structure SerializedSessionRec where
  id : String
  historyEnabled : Bool
  historyBackend : String
  conversationHistory : List Msg
  version : ℕ
  deriving Repr, DecidableEq

/-- Modelled from the spec: the version constant of persistence-types.ts
(spec §6: "`version` must equal the constant defined by the build"). -/
def SESSION_PERSISTENCE_CURRENT_VERSION : ℕ := 1

/-- Method `serialize` (lines 1531–1605): prefer the provider history; if it is
empty (provider missing, read failed, or genuinely empty) fall back to the
context manager's raw messages when those are non-empty. -/
def serializeSession (sessionId : String) (historyEnabled : Bool)
    (historyBackend : String) (providerAvailable providerReadOk : Bool)
    (store : List Msg) (cmMessages : List Msg) : SerializedSessionRec :=
  let fromProvider :=
    if providerAvailable ∧ historyEnabled ∧ providerReadOk
    then providerGetHistory store else []
  let conversationHistory :=
    if fromProvider = [] ∧ cmMessages ≠ [] then cmMessages else fromProvider
  { id := sessionId, historyEnabled := historyEnabled,
    historyBackend := historyBackend,
    conversationHistory := conversationHistory,
    version := SESSION_PERSISTENCE_CURRENT_VERSION }

/-- Method `deserialize` (lines 1613–1708), provider side: with a non-empty
serialized history and an available provider, the target store is cleared
and each message re-saved in order; otherwise the store is untouched. -/
def deserializeStore (data : SerializedSessionRec) (targetStore : List Msg)
    (providerAvailable : Bool) : List Msg :=
  if data.conversationHistory ≠ [] ∧ providerAvailable then
    data.conversationHistory.foldl providerSaveMessage
      (providerClearHistory targetStore)
  else targetStore

/-- Method `deserialize`, context-manager side: after `init()` the new session's
context manager is empty; `refreshConversationHistory` runs only when the
serialized history is non-empty and loads the restored store. -/
def deserializeContextMessages (data : SerializedSessionRec)
    (restoredStore : List Msg) (providerAvailable : Bool) : List Msg :=
  if data.conversationHistory ≠ [] then
    refreshedContextMessages providerAvailable restoredStore
  else []

/-! ### `run()` background operations (lines 545–609, 617–866) -/

/-- Method `enforceMemoryExtraction` (lines 617–866): whatever its body does —
memory tool execution, aggregation, reflection processing — the wrapping
try/catch (lines 859–866) logs any error and returns normally. -/
def enforceMemoryExtraction (bodyOutcome : Except String Unit) :
    Except String Unit :=
  match bodyOutcome with
  | .ok _ => .ok ()
  | .error _ => .ok ()

/-- The background promise of `run()` (lines 547–607); `true` means the
promise resolved.  If embeddings are disabled (env flags or embedding
manager state) all work is skipped; otherwise `enforceMemoryExtraction` runs
under a try/catch and `resolve()` is reached on every path. -/
def backgroundOperations (embeddingsDisabledEnv embeddingManagerDisabled : Bool)
    (memoryBody : Except String Unit) : Bool :=
  if embeddingsDisabledEnv || embeddingManagerDisabled then true
  else
    match enforceMemoryExtraction memoryBody with
    | .ok _ => true
    | .error _ => true

/-- The value `run()` hands back to the caller: the LLM response computed
before the background job is scheduled, and the background promise. -/
def runSession (llmResponse : String)
    (embeddingsDisabledEnv embeddingManagerDisabled : Bool)
    (memoryBody : Except String Unit) : String × Bool :=
  (llmResponse,
   backgroundOperations embeddingsDisabledEnv embeddingManagerDisabled memoryBody)

/-! ## Concrete inputs used by witnesses and counterexamples -/

/-- A fact processed without embedding/vector services (basic analysis). -/
def basicFactEnv : FactEnv :=
  { fact := "x", servicesAvailable := false, embeddingManagerAvailable := false,
    embedOk := false, searchOk := false, searchResults := [],
    llmServiceAvailable := false, llmParsedDecision := none, codePattern := none,
    now := 0, randomSuffix := 0, fallbackRandom := 0 }

/-- The action the handler produces for `basicFactEnv`. -/
def basicAction : MemoryAction :=
  { id := 1, text := "x", event := .ADD, tags := ["general-knowledge"],
    confidence := 0.7 }

/-- A fact whose embedding call fails while services are available. -/
def embedFailFactEnv : FactEnv :=
  { fact := "x", servicesAvailable := true, embeddingManagerAvailable := true,
    embedOk := false, searchOk := false, searchResults := [],
    llmServiceAvailable := false, llmParsedDecision := none, codePattern := none,
    now := 0, randomSuffix := 0, fallbackRandom := 0 }

/-- A fact decided by the LLM with a target memory id of 400000 (outside the
generated range `[1, 333333]` but accepted by the id validation). -/
def llmTargetFactEnv : FactEnv :=
  { fact := "x", servicesAvailable := true, embeddingManagerAvailable := true,
    embedOk := true, searchOk := true, searchResults := [],
    llmServiceAvailable := true,
    llmParsedDecision := some { operation := "ADD", confidence := 0.9,
                                targetMemoryId := some 400000 },
    codePattern := none, now := 0, randomSuffix := 0, fallbackRandom := 0 }

/-- The action the handler produces for `llmTargetFactEnv`: its id is the
LLM-supplied 400000, outside `[1, 333333]`. -/
def llmAction : MemoryAction :=
  { id := 400000, text := "x", event := .ADD, tags := ["general-knowledge"],
    confidence := 0.9 }

/-! ## Helper lemmas -/

theorem jsStrOpt_none : jsStrOpt none = none := rfl

theorem generateMemoryId_bounds (now randomSuffix fallbackRandom index : ℕ) :
    1 ≤ generateMemoryId now randomSuffix fallbackRandom index ∧
    generateMemoryId now randomSuffix fallbackRandom index ≤ 333333 := by
  unfold generateMemoryId
  have hmod : ((now % 300000) * 1000 + randomSuffix + index) % 333333 < 333333 :=
    Nat.mod_lt _ (by norm_num)
  simp only [Nat.add_eq_zero, Nat.le_zero, one_ne_zero, false_and, if_false,
    Nat.not_succ_le_zero]
  constructor
  · omega
  · omega

theorem determineMemoryOperation_nil (fact : String) (threshold : ℚ)
    (now randomSuffix fallbackRandom index : ℕ)
    (codePattern : Option String) (tags : List String) :
    determineMemoryOperation fact [] threshold now randomSuffix fallbackRandom
      index codePattern tags =
    { id := generateMemoryId now randomSuffix fallbackRandom index,
      text := fact, event := .ADD, tags := tags, confidence := 0.8,
      code_pattern := jsStrOpt codePattern } := rfl

theorem determineMemoryOperation_cons (fact : String) (top : SearchHit)
    (rest : List SearchHit) (threshold : ℚ)
    (now randomSuffix fallbackRandom index : ℕ)
    (codePattern : Option String) (tags : List String) :
    determineMemoryOperation fact (top :: rest) threshold now randomSuffix
      fallbackRandom index codePattern tags =
    (if 0.9 < hitScore top then
      { id := generateMemoryId now randomSuffix fallbackRandom index,
        text := fact, event := .NONE, tags := tags, confidence := 0.9,
        code_pattern := jsStrOpt codePattern }
     else if threshold < hitScore top ∧ hitScore top ≤ 0.9 then
      { id := generateMemoryId now randomSuffix fallbackRandom index,
        text := fact, event := .UPDATE, tags := tags, confidence := 0.75,
        old_memory := some (hitText top), code_pattern := jsStrOpt codePattern }
     else
      { id := generateMemoryId now randomSuffix fallbackRandom index,
        text := fact, event := .ADD, tags := tags, confidence := 0.7,
        code_pattern := jsStrOpt codePattern }) := rfl

theorem determineMemoryOperation_id (fact : String) (similarMemories : List SearchHit)
    (threshold : ℚ) (now randomSuffix fallbackRandom index : ℕ)
    (codePattern : Option String) (tags : List String) :
    (determineMemoryOperation fact similarMemories threshold now randomSuffix
      fallbackRandom index codePattern tags).id =
      generateMemoryId now randomSuffix fallbackRandom index := by
  unfold determineMemoryOperation
  cases similarMemories with
  | nil => rfl
  | cons top rest =>
      simp only
      split
      · rfl
      · split <;> rfl

theorem applyConfidenceGate_confidence (opts : MemoryOptions) (a : MemoryAction) :
    (applyConfidenceGate opts a).confidence = a.confidence := by
  unfold applyConfidenceGate
  split <;> rfl

theorem applyConfidenceGate_id (opts : MemoryOptions) (a : MemoryAction) :
    (applyConfidenceGate opts a).id = a.id := by
  unfold applyConfidenceGate
  split <;> rfl

theorem applyConfidenceGate_tags (opts : MemoryOptions) (a : MemoryAction) :
    (applyConfidenceGate opts a).tags = a.tags := by
  unfold applyConfidenceGate
  split <;> rfl

theorem applyConfidenceGate_below (opts : MemoryOptions) (a : MemoryAction)
    (h : (applyConfidenceGate opts a).confidence < opts.confidenceThreshold) :
    (applyConfidenceGate opts a).event = .NONE := by
  rw [applyConfidenceGate_confidence] at h
  unfold applyConfidenceGate
  split
  · rfl
  · rename_i hc
    rcases Decidable.em (a.event = .NONE) with he | he
    · simpa using he
    · exact absurd ⟨h, he⟩ hc

theorem mem_ite_singleton {c : Prop} [Decidable c] {x s : String}
    (h : x ∈ (if c then [s] else [])) : x = s := by
  split at h
  · simpa using h
  · simp at h

theorem tagMatches_subset (fact : String) :
    ∀ x ∈ tagMatches fact, x ∈ allTagStrings := by
  intro x hx
  simp only [tagMatches, List.mem_append] at hx
  simp only [allTagStrings, List.mem_append]
  rcases hx with ((((((((h | h) | h) | h) | h) | h) | h) | h) | h)
  · exact Or.inl (Or.inl (Or.inl (List.mem_of_mem_filter h)))
  · exact Or.inl (Or.inl (Or.inr (List.mem_of_mem_filter h)))
  · exact Or.inl (Or.inr (List.mem_of_mem_filter h))
  all_goals (rw [mem_ite_singleton h]; right; decide)

theorem allTagStrings_lower : ∀ x ∈ allTagStrings, toLowerStr x = x := by decide

theorem dedupFirst_subset (l : List String) :
    ∀ seen, ∀ x ∈ dedupFirst seen l, x ∈ l := by
  induction l with
  | nil => intro seen x hx; simp [dedupFirst] at hx
  | cons a t ih =>
      intro seen x hx
      unfold dedupFirst at hx
      split at hx
      · exact List.mem_cons_of_mem a (ih seen x hx)
      · rcases List.mem_cons.mp hx with h | h
        · exact h ▸ List.mem_cons_self a t
        · exact List.mem_cons_of_mem a (ih (a :: seen) x h)

theorem dedupFirst_nodup (l : List String) :
    ∀ seen, (dedupFirst seen l).Nodup ∧ ∀ x ∈ dedupFirst seen l, x ∉ seen := by
  induction l with
  | nil => intro seen; simp [dedupFirst]
  | cons a t ih =>
      intro seen
      unfold dedupFirst
      split
      · exact ih seen
      · rename_i ha
        obtain ⟨hnd, hmem⟩ := ih (a :: seen)
        refine ⟨List.nodup_cons.mpr ⟨fun hc => ?_, hnd⟩, ?_⟩
        · exact hmem a hc (List.mem_cons_self a seen)
        · intro x hx
          rcases List.mem_cons.mp hx with h | h
          · exact h ▸ ha
          · intro hseen
            exact hmem x h (List.mem_cons_of_mem a hseen)

theorem dedupFirst_ne_nil {l : List String} (h : l ≠ []) :
    dedupFirst [] l ≠ [] := by
  cases l with
  | nil => exact absurd rfl h
  | cons a t =>
      unfold dedupFirst
      rw [if_neg (List.not_mem_nil a)]
      exact List.cons_ne_nil a _

theorem llmDetermineMemoryOperation_inv {fact : String}
    {similarMemories : List SearchHit} {parsed : Option RawDecision}
    {now randomSuffix fallbackRandom index : ℕ} {codePattern : Option String}
    {tags : List String} {a : MemoryAction}
    (h : llmDetermineMemoryOperation fact similarMemories parsed now
      randomSuffix fallbackRandom index codePattern tags = some a) :
    a.tags = tags ∧ 0 ≤ a.confidence ∧ a.confidence ≤ 1 ∧ 1 ≤ a.id := by
  unfold llmDetermineMemoryOperation at h
  match parsed with
  | none => simp at h
  | some d =>
      simp only at h
      split at h
      · simp at h
      · replace h := Option.some.inj h
        subst h
        refine ⟨rfl, le_max_left 0 _, max_le (by norm_num) (min_le_left 1 _), ?_⟩
        simp only
        split
        · exact (generateMemoryId_bounds now randomSuffix fallbackRandom index).1
        · rename_i hne
          exact Nat.one_le_iff_ne_zero.mpr hne

theorem determineMemoryOperation_inv (fact : String)
    (similarMemories : List SearchHit) (threshold : ℚ)
    (now randomSuffix fallbackRandom index : ℕ) (codePattern : Option String)
    (tags : List String) :
    (determineMemoryOperation fact similarMemories threshold now randomSuffix
      fallbackRandom index codePattern tags).tags = tags ∧
    0 ≤ (determineMemoryOperation fact similarMemories threshold now
      randomSuffix fallbackRandom index codePattern tags).confidence ∧
    (determineMemoryOperation fact similarMemories threshold now randomSuffix
      fallbackRandom index codePattern tags).confidence ≤ 1 := by
  cases similarMemories with
  | nil =>
      rw [determineMemoryOperation_nil]
      refine ⟨rfl, by norm_num, by norm_num⟩
  | cons top rest =>
      rw [determineMemoryOperation_cons]
      split
      · refine ⟨rfl, by norm_num, by norm_num⟩
      · split
        · refine ⟨rfl, by norm_num, by norm_num⟩
        · refine ⟨rfl, by norm_num, by norm_num⟩

/-- Inversion for the per-fact loop: every action pushed to `memoryActions`
is the confidence gate applied to a base action whose tags come from
`extractTechnicalTags`, whose confidence lies in `[0, 1]` and whose id is
positive. -/
theorem processFact_action_inv {opts : MemoryOptions}
    {existingMemories : List ExistingMemory} {index : ℕ} {env : FactEnv}
    {a : MemoryAction}
    (h : (processFact opts existingMemories index env).action = some a) :
    ∃ base, a = applyConfidenceGate opts base ∧
      base.tags = extractTechnicalTags env.fact ∧
      0 ≤ base.confidence ∧ base.confidence ≤ 1 ∧ 1 ≤ base.id := by
  unfold processFact at h
  split at h
  · -- services available
    split at h
    · -- embed failed: action is none
      simp at h
    · split at h
      · -- search failed: ADD @ 0.6
        replace h := Option.some.inj h
        exact ⟨_, h.symm, rfl, by norm_num, by norm_num,
          (generateMemoryId_bounds env.now env.randomSuffix env.fallbackRandom index).1⟩
      · -- main path: LLM decision or similarity fallback
        simp only at h
        split at h
        · -- LLM decisions enabled
          rename_i hllm
          split at h
          · rename_i b hb
            replace h := Option.some.inj h
            obtain ⟨htags, h0, h1, hid⟩ := llmDetermineMemoryOperation_inv hb
            exact ⟨b, h.symm, htags, h0, h1, hid⟩
          · replace h := Option.some.inj h
            obtain ⟨htags, h0, h1⟩ := determineMemoryOperation_inv env.fact _
              opts.similarityThreshold env.now env.randomSuffix
              env.fallbackRandom index env.codePattern
              (extractTechnicalTags env.fact)
            refine ⟨_, h.symm, htags, h0, h1, ?_⟩
            rw [determineMemoryOperation_id]
            exact (generateMemoryId_bounds env.now env.randomSuffix
              env.fallbackRandom index).1
        · replace h := Option.some.inj h
          obtain ⟨htags, h0, h1⟩ := determineMemoryOperation_inv env.fact _
            opts.similarityThreshold env.now env.randomSuffix
            env.fallbackRandom index env.codePattern
            (extractTechnicalTags env.fact)
          refine ⟨_, h.symm, htags, h0, h1, ?_⟩
          rw [determineMemoryOperation_id]
          exact (generateMemoryId_bounds env.now env.randomSuffix
            env.fallbackRandom index).1
  · -- basic analysis
    replace h := Option.some.inj h
    refine ⟨_, h.symm, rfl, ?_, ?_,
      (generateMemoryId_bounds env.now env.randomSuffix env.fallbackRandom index).1⟩
    · split <;> norm_num
    · split <;> norm_num

/-- Membership in the handler's returned `memory` array comes from some
per-fact outcome. -/
theorem memoryOperationHandler_mem {opts : MemoryOptions}
    {existingMemories : List ExistingMemory} {envs : List FactEnv}
    {a : MemoryAction} (h : a ∈ memoryOperationHandler opts existingMemories envs) :
    ∃ index env, (processFact opts existingMemories index env).action = some a := by
  unfold memoryOperationHandler at h
  simp only at h
  split at h
  · simp at h
  · obtain ⟨p, _, hp⟩ := List.mem_filterMap.mp h
    exact ⟨p.1, p.2, hp⟩

theorem processFact_basic_eval :
    processFact DEFAULT_OPTIONS [] 0 basicFactEnv =
    { action := some basicAction, embeddingsDisabledGlobally := false } := by
  have h1 : extractTechnicalTags "x" = ["general-knowledge"] := by decide
  simp only [processFact, basicFactEnv, applyConfidenceGate, DEFAULT_OPTIONS, h1,
    basicAction]
  norm_num
  exact ⟨by decide, rfl⟩

theorem handler_basic_eval :
    memoryOperationHandler DEFAULT_OPTIONS [] [basicFactEnv] = [basicAction] := by
  have hv : ([basicFactEnv].filter (fun e => jsTrim e.fact ≠ "")).map
      (fun e => { e with fact := jsTrim e.fact }) = [basicFactEnv] := by decide
  simp only [memoryOperationHandler, hv]
  norm_num [List.filterMap, processFact_basic_eval]

theorem extractTechnicalTags_props (fact : String) :
    extractTechnicalTags fact ≠ [] ∧ (extractTechnicalTags fact).Nodup ∧
    ∀ t ∈ extractTechnicalTags fact, toLowerStr t = t := by
  unfold extractTechnicalTags
  simp only
  set l := if tagMatches fact = [] then ["general-knowledge"] else tagMatches fact
    with hl
  have hlsub : ∀ x ∈ l, x ∈ allTagStrings := by
    intro x hx
    rw [hl] at hx
    split at hx
    · simp only [List.mem_singleton] at hx
      subst hx
      decide
    · exact tagMatches_subset fact x hx
  have hlne : l ≠ [] := by
    rw [hl]
    split
    · simp
    · assumption
  have hdsub : ∀ x ∈ dedupFirst [] l, x ∈ allTagStrings :=
    fun x hx => hlsub x (dedupFirst_subset l [] x hx)
  have hmap : (dedupFirst [] l).map toLowerStr = dedupFirst [] l := by
    rw [List.map_congr_left (fun x hx => allTagStrings_lower x (hdsub x hx))]
    exact List.map_id _
  rw [hmap]
  exact ⟨dedupFirst_ne_nil hlne, (dedupFirst_nodup l []).1,
    fun t ht => allTagStrings_lower t (hdsub t ht)⟩

theorem llmDetermine_llmTarget_eval :
    llmDetermineMemoryOperation "x" []
      (some { operation := "ADD", confidence := 0.9, targetMemoryId := some 400000 })
      0 0 0 0 none ["general-knowledge"] = some llmAction := by
  have hvalid : isValidOperation "ADD" = true := by decide
  unfold llmDetermineMemoryOperation
  simp only [hvalid, Bool.true_eq_false, not_false_eq_true, if_neg, llmAction,
    toMemoryEvent, if_true]
  norm_num
  rfl

theorem processFact_llmTarget_eval :
    processFact DEFAULT_OPTIONS [] 0 llmTargetFactEnv =
    { action := some llmAction, embeddingsDisabledGlobally := false } := by
  have h1 : extractTechnicalTags "x" = ["general-knowledge"] := by decide
  simp only [processFact, llmTargetFactEnv, DEFAULT_OPTIONS, h1, List.filter_nil,
    llmDetermine_llmTarget_eval, applyConfidenceGate]
  norm_num [llmAction]

theorem handler_llmTarget_eval :
    memoryOperationHandler DEFAULT_OPTIONS [] [llmTargetFactEnv] = [llmAction] := by
  have hv : ([llmTargetFactEnv].filter (fun e => jsTrim e.fact ≠ "")).map
      (fun e => { e with fact := jsTrim e.fact }) = [llmTargetFactEnv] := by
    have ht : jsTrim "x" = "x" := by decide
    simp [llmTargetFactEnv, ht]
  simp only [memoryOperationHandler, hv]
  norm_num [List.filterMap, processFact_llmTarget_eval]

/-! ## Claim theorems -/

/-- Claim C1: the similarity-only fallback decision (`determineMemoryOperation`):
no filtered hits → ADD @ 0.8; top hit above 0.9 → NONE @ 0.9; top hit in
`(threshold, 0.9]` → UPDATE @ 0.75 with `old_memory` the top hit's text;
otherwise ADD @ 0.7. -/
theorem determineMemoryOperation_decision (fact : String)
    (similarMemories : List SearchHit) (threshold : ℚ)
    (now randomSuffix fallbackRandom index : ℕ)
    (codePattern : Option String) (tags : List String) :
    (similarMemories = [] →
      (determineMemoryOperation fact similarMemories threshold now randomSuffix
        fallbackRandom index codePattern tags).event = .ADD ∧
      (determineMemoryOperation fact similarMemories threshold now randomSuffix
        fallbackRandom index codePattern tags).confidence = 0.8) ∧
    (∀ top rest, similarMemories = top :: rest →
      (0.9 < hitScore top →
        (determineMemoryOperation fact similarMemories threshold now randomSuffix
          fallbackRandom index codePattern tags).event = .NONE ∧
        (determineMemoryOperation fact similarMemories threshold now randomSuffix
          fallbackRandom index codePattern tags).confidence = 0.9) ∧
      (threshold < hitScore top → hitScore top ≤ 0.9 →
        (determineMemoryOperation fact similarMemories threshold now randomSuffix
          fallbackRandom index codePattern tags).event = .UPDATE ∧
        (determineMemoryOperation fact similarMemories threshold now randomSuffix
          fallbackRandom index codePattern tags).confidence = 0.75 ∧
        (determineMemoryOperation fact similarMemories threshold now randomSuffix
          fallbackRandom index codePattern tags).old_memory = some (hitText top)) ∧
      (hitScore top ≤ 0.9 → hitScore top ≤ threshold →
        (determineMemoryOperation fact similarMemories threshold now randomSuffix
          fallbackRandom index codePattern tags).event = .ADD ∧
        (determineMemoryOperation fact similarMemories threshold now randomSuffix
          fallbackRandom index codePattern tags).confidence = 0.7)) := by
  constructor
  · intro h
    subst h
    rw [determineMemoryOperation_nil]
    exact ⟨rfl, rfl⟩
  · intro top rest h
    subst h
    refine ⟨?_, ?_, ?_⟩
    · intro h9
      rw [determineMemoryOperation_cons, if_pos h9]
      exact ⟨rfl, rfl⟩
    · intro ht h9
      have h9n : ¬ (0.9 : ℚ) < hitScore top := not_lt.mpr h9
      rw [determineMemoryOperation_cons, if_neg h9n, if_pos ⟨ht, h9⟩]
      exact ⟨rfl, rfl, rfl⟩
    · intro h9 ht
      have h9n : ¬ (0.9 : ℚ) < hitScore top := not_lt.mpr h9
      have htn : ¬ (threshold < hitScore top ∧ hitScore top ≤ 0.9) :=
        fun hc => absurd hc.1 (not_lt.mpr ht)
      rw [determineMemoryOperation_cons, if_neg h9n, if_neg htn]
      exact ⟨rfl, rfl⟩

/-- Witness for C1: the UPDATE case at a concrete hit of score 0.82 against
threshold 0.7. -/
theorem determineMemoryOperation_decision_witness :
    (determineMemoryOperation "f" [⟨some 0.82, some "old text", none, none, none⟩]
      0.7 0 0 0 0 none []).event = .UPDATE ∧
    (determineMemoryOperation "f" [⟨some 0.82, some "old text", none, none, none⟩]
      0.7 0 0 0 0 none []).confidence = 0.75 ∧
    (determineMemoryOperation "f" [⟨some 0.82, some "old text", none, none, none⟩]
      0.7 0 0 0 0 none []).old_memory = some "old text" := by
  have h := ((determineMemoryOperation_decision "f"
    [⟨some 0.82, some "old text", none, none, none⟩] 0.7 0 0 0 0 none []).2
    ⟨some 0.82, some "old text", none, none, none⟩ [] rfl).2.1
    (by norm_num [hitScore]) (by norm_num [hitScore])
  refine ⟨h.1, h.2.1, ?_⟩
  rw [h.2.2]
  rfl

/-- Claim C2: every action in the `memory` array returned by the
memory-operation tool handler has an event among ADD/UPDATE/DELETE/NONE, a
confidence in `[0, 1]`, and is demoted to NONE whenever its confidence is
below the configured `confidenceThreshold`. -/
theorem memoryHandler_action_invariant (opts : MemoryOptions)
    (existingMemories : List ExistingMemory) (envs : List FactEnv) :
    ∀ a ∈ memoryOperationHandler opts existingMemories envs,
      (a.event = .ADD ∨ a.event = .UPDATE ∨ a.event = .DELETE ∨ a.event = .NONE) ∧
      (0 ≤ a.confidence ∧ a.confidence ≤ 1) ∧
      (a.confidence < opts.confidenceThreshold → a.event = .NONE) := by
  intro a h
  obtain ⟨i, env, hp⟩ := memoryOperationHandler_mem h
  obtain ⟨base, ha, _, h0, h1, _⟩ := processFact_action_inv hp
  subst ha
  refine ⟨?_, ⟨?_, ?_⟩, ?_⟩
  · cases (applyConfidenceGate opts base).event
    · exact Or.inl rfl
    · exact Or.inr (Or.inl rfl)
    · exact Or.inr (Or.inr (Or.inl rfl))
    · exact Or.inr (Or.inr (Or.inr rfl))
  · rw [applyConfidenceGate_confidence]
    exact h0
  · rw [applyConfidenceGate_confidence]
    exact h1
  · exact applyConfidenceGate_below opts base

/-- Witness for C2 at a concrete run of the handler. -/
theorem memoryHandler_action_invariant_witness :
    (basicAction.event = .ADD ∨ basicAction.event = .UPDATE ∨
     basicAction.event = .DELETE ∨ basicAction.event = .NONE) ∧
    (0 ≤ basicAction.confidence ∧ basicAction.confidence ≤ 1) ∧
    (basicAction.confidence < DEFAULT_OPTIONS.confidenceThreshold →
     basicAction.event = .NONE) :=
  memoryHandler_action_invariant DEFAULT_OPTIONS [] [basicFactEnv] basicAction
    (by rw [handler_basic_eval]; exact List.mem_singleton.mpr rfl)

/-- Claim C4 (corrected): when embedding a fact fails while services are
available, embeddings are disabled globally (when an embedding manager is in
context), the ADD@0.6 fallback action is constructed, but the `continue`
drops it before the gate and the push — it never appears among the
handler's resulting memory actions. -/
theorem processFact_embedFail (opts : MemoryOptions)
    (existingMemories : List ExistingMemory) (index : ℕ) (env : FactEnv)
    (h1 : env.servicesAvailable = true) (h2 : env.embedOk = false) :
    processFact opts existingMemories index env =
      { action := none,
        embeddingsDisabledGlobally := env.embeddingManagerAvailable } := by
  unfold processFact
  simp [h1, h2]

/-- Witness for the amended C4. -/
theorem processFact_embedFail_witness :
    processFact DEFAULT_OPTIONS [] 0 embedFailFactEnv =
      { action := none, embeddingsDisabledGlobally := true } :=
  processFact_embedFail DEFAULT_OPTIONS [] 0 embedFailFactEnv rfl rfl

/-- Counterexample to C4 as stated: a run in which the embedding of the only
fact fails does disable embeddings globally, yet the handler's resulting
memory array is empty — the ADD@0.6 fallback action does not appear in it. -/
theorem processFact_embedFail_counterexample :
    (processFact DEFAULT_OPTIONS [] 0 embedFailFactEnv).embeddingsDisabledGlobally
      = true ∧
    memoryOperationHandler DEFAULT_OPTIONS [] [embedFailFactEnv] = [] := by
  constructor
  · decide
  · decide

/-- Claim C9 (amended): `generateMemoryId` always returns an id in
`[1, 333333]`, and every action returned by the handler carries a positive
integer id; but an action whose id was taken from an LLM-supplied
`targetMemoryId` is only guaranteed positive, not bounded by 333333. -/
theorem generateMemoryId_range :
    (∀ now randomSuffix fallbackRandom index : ℕ,
      1 ≤ generateMemoryId now randomSuffix fallbackRandom index ∧
      generateMemoryId now randomSuffix fallbackRandom index ≤ 333333) ∧
    (∀ (opts : MemoryOptions) (existingMemories : List ExistingMemory)
      (envs : List FactEnv), ∀ a ∈ memoryOperationHandler opts existingMemories envs,
      1 ≤ a.id) := by
  refine ⟨generateMemoryId_bounds, ?_⟩
  intro opts ex envs a h
  obtain ⟨i, env, hp⟩ := memoryOperationHandler_mem h
  obtain ⟨base, ha, _, _, _, hid⟩ := processFact_action_inv hp
  subst ha
  rwa [applyConfidenceGate_id]

/-- Witness for C9 (amended) at a concrete run. -/
theorem generateMemoryId_range_witness :
    1 ≤ basicAction.id :=
  generateMemoryId_range.2 DEFAULT_OPTIONS [] [basicFactEnv] basicAction
    (by rw [handler_basic_eval]; exact List.mem_singleton.mpr rfl)

/-- Counterexample to C9's consequent as stated: an LLM decision carrying
`targetMemoryId = 400000` produces a handler action whose id is 400000,
outside `[1, 333333]`. -/
theorem generateMemoryId_range_counterexample :
    (memoryOperationHandler DEFAULT_OPTIONS [] [llmTargetFactEnv]).map
      MemoryAction.id = [400000] ∧ ¬ (400000 ≤ 333333) := by
  refine ⟨?_, by norm_num⟩
  rw [handler_llmTarget_eval]
  rfl

/-- Claim C10: `extractTechnicalTags` always returns a non-empty,
duplicate-free list of lowercase tag strings (falling back to
`general-knowledge`), so every action produced by the handler has at least
one tag. -/
theorem extractTechnicalTags_invariant :
    (∀ fact : String, extractTechnicalTags fact ≠ [] ∧
      (extractTechnicalTags fact).Nodup ∧
      ∀ t ∈ extractTechnicalTags fact, toLowerStr t = t) ∧
    (∀ (opts : MemoryOptions) (existingMemories : List ExistingMemory)
      (envs : List FactEnv), ∀ a ∈ memoryOperationHandler opts existingMemories envs,
      a.tags ≠ []) := by
  refine ⟨extractTechnicalTags_props, ?_⟩
  intro opts ex envs a h
  obtain ⟨i, env, hp⟩ := memoryOperationHandler_mem h
  obtain ⟨base, ha, htags, _⟩ := processFact_action_inv hp
  subst ha
  rw [applyConfidenceGate_tags, htags]
  exact (extractTechnicalTags_props env.fact).1

/-- Witness for C10 at a concrete run. -/
theorem extractTechnicalTags_invariant_witness :
    basicAction.tags ≠ [] :=
  extractTechnicalTags_invariant.2 DEFAULT_OPTIONS [] [basicFactEnv] basicAction
    (by rw [handler_basic_eval]; exact List.mem_singleton.mpr rfl)

/-- Claim C5: every payload `persistMemoryActions` writes to the vector store
carries `qualitySource = heuristic`, whatever produced the decision. -/
theorem persistMemoryActions_qualitySource (memoryActions : List MemoryAction)
    (embedOk : String → Bool) :
    ∀ op ∈ persistMemoryActions memoryActions embedOk,
      op.payload.qualitySource = .heuristic := by
  intro op hop
  unfold persistMemoryActions at hop
  obtain ⟨a, _, hf⟩ := List.mem_filterMap.mp hop
  split at hf
  · simp at hf
  · simp only at hf
    split at hf
    · replace hf := Option.some.inj hf
      subst hf
      rfl
    · replace hf := Option.some.inj hf
      subst hf
      rfl
    · simp at hf
    · simp at hf

theorem persist_basic_eval :
    persistMemoryActions [basicAction] (fun _ => true) =
    [.insert 1 (createKnowledgePayload 1 "x" ["general-knowledge"] 0.7 .ADD
      .heuristic none none)] := by
  simp [persistMemoryActions, basicAction, jsStrOpt]

/-- Witness for C5 at a concrete persisted ADD action. -/
theorem persistMemoryActions_qualitySource_witness :
    (VectorStoreOp.insert 1 (createKnowledgePayload 1 "x" ["general-knowledge"]
      0.7 .ADD .heuristic none none)).payload.qualitySource = .heuristic :=
  persistMemoryActions_qualitySource [basicAction] (fun _ => true) _
    (by rw [persist_basic_eval]; exact List.mem_singleton.mpr rfl)

theorem retryLoop_call_count (tools : List String) (outcomes : ℕ → AttemptResult) :
    ∀ fuel attempts,
      ((getAIResponseWithRetriesLoop tools outcomes attempts fuel).2.countP
        (fun ev => match ev with | .call _ _ => true | _ => false)) ≤ fuel := by
  intro fuel
  induction fuel with
  | zero => intro attempts; simp [getAIResponseWithRetriesLoop]
  | succ n ih =>
      intro attempts
      unfold getAIResponseWithRetriesLoop
      simp only
      split
      · simp [List.countP_cons]
      · split
        · simp [List.countP_cons]
        · have := ih (attempts + 1)
          simp [List.countP_cons] at this ⊢
          omega
      · split
        · simp [List.countP_cons]
        · have := ih (attempts + 1)
          simp [List.countP_cons] at this ⊢
          omega

theorem retryLoop_later_calls (tools : List String) (outcomes : ℕ → AttemptResult) :
    ∀ fuel attempts, 1 ≤ attempts →
      ∀ t c, RetryEvent.call t c ∈ (getAIResponseWithRetriesLoop tools outcomes attempts fuel).2 →
        t = [] ∧ c = "none" := by
  intro fuel
  induction fuel with
  | zero => intro attempts _ t c h; simp [getAIResponseWithRetriesLoop] at h
  | succ n ih =>
      intro attempts ha t c h
      have hne : ¬ (attempts + 1 = 1) := by omega
      unfold getAIResponseWithRetriesLoop at h
      simp only [if_neg hne] at h
      split at h
      · simp only [List.mem_singleton] at h
        cases h
        exact ⟨rfl, rfl⟩
      · split at h
        · simp only [List.mem_singleton] at h
          cases h
          exact ⟨rfl, rfl⟩
        · simp only [List.mem_cons] at h
          rcases h with h | h | h
          · cases h; exact ⟨rfl, rfl⟩
          · cases h
          · exact ih (attempts + 1) (by omega) t c h
      · split at h
        · simp only [List.mem_singleton] at h
          cases h
          exact ⟨rfl, rfl⟩
        · simp only [List.mem_cons] at h
          rcases h with h | h | h
          · cases h; exact ⟨rfl, rfl⟩
          · cases h
          · exact ih (attempts + 1) (by omega) t c h

/-- Claim C6: the retry helper calls the provider at most 3 times; the first
request carries the full tool list with tool-choice `auto` and every retry
carries an empty tool list with tool-choice `none`; after a transport error
on attempt n it waits 500·n ms before retrying; and if all three attempts
fail the last error is propagated. -/
theorem getAIResponseWithRetries_spec (tools : List String)
    (outcomes : ℕ → AttemptResult) :
    (((getAIResponseWithRetries tools outcomes).2.countP
        (fun ev => match ev with | .call _ _ => true | _ => false)) ≤ 3) ∧
    (∃ rest, (getAIResponseWithRetries tools outcomes).2 =
        .call tools "auto" :: rest ∧
      ∀ t c, RetryEvent.call t c ∈ rest → t = [] ∧ c = "none") ∧
    (∀ m, outcomes 1 = .success m →
      getAIResponseWithRetries tools outcomes = (.ok m, [.call tools "auto"])) ∧
    (∀ e₁ m, outcomes 1 = .transportError e₁ → outcomes 2 = .success m →
      getAIResponseWithRetries tools outcomes =
        (.ok m, [.call tools "auto", .wait 500, .call [] "none"])) ∧
    (∀ e₁ e₂ m, outcomes 1 = .transportError e₁ →
      outcomes 2 = .transportError e₂ → outcomes 3 = .success m →
      getAIResponseWithRetries tools outcomes =
        (.ok m, [.call tools "auto", .wait 500, .call [] "none",
                 .wait 1000, .call [] "none"])) ∧
    (∀ e₁ e₂ e₃, outcomes 1 = .transportError e₁ →
      outcomes 2 = .transportError e₂ → outcomes 3 = .transportError e₃ →
      getAIResponseWithRetries tools outcomes =
        (.error e₃, [.call tools "auto", .wait 500, .call [] "none",
                     .wait 1000, .call [] "none"])) := by
  have hstep : ∀ attempts fuel,
      getAIResponseWithRetriesLoop tools outcomes attempts (fuel + 1) =
      (match outcomes (attempts + 1) with
       | .success m => (.ok m,
           [.call (if attempts + 1 = 1 then tools else [])
                  (if attempts + 1 = 1 then "auto" else "none")])
       | .emptyMessage =>
           if MAX_ATTEMPTS ≤ attempts + 1 then
             (.error "Received empty message from Ollama API",
              [.call (if attempts + 1 = 1 then tools else [])
                     (if attempts + 1 = 1 then "auto" else "none")])
           else
             ((getAIResponseWithRetriesLoop tools outcomes (attempts + 1) fuel).1,
              .call (if attempts + 1 = 1 then tools else [])
                    (if attempts + 1 = 1 then "auto" else "none") ::
                .wait (500 * (attempts + 1)) ::
                (getAIResponseWithRetriesLoop tools outcomes (attempts + 1) fuel).2)
       | .transportError e =>
           if MAX_ATTEMPTS ≤ attempts + 1 then
             (.error e,
              [.call (if attempts + 1 = 1 then tools else [])
                     (if attempts + 1 = 1 then "auto" else "none")])
           else
             ((getAIResponseWithRetriesLoop tools outcomes (attempts + 1) fuel).1,
              .call (if attempts + 1 = 1 then tools else [])
                    (if attempts + 1 = 1 then "auto" else "none") ::
                .wait (500 * (attempts + 1)) ::
                (getAIResponseWithRetriesLoop tools outcomes (attempts + 1) fuel).2)) := by
    intro attempts fuel
    rfl
  refine ⟨retryLoop_call_count tools outcomes 3 0, ?_, ?_, ?_, ?_, ?_⟩
  · show ∃ rest, (getAIResponseWithRetriesLoop tools outcomes 0 (2 + 1)).2 =
        .call tools "auto" :: rest ∧
      ∀ t c, RetryEvent.call t c ∈ rest → t = [] ∧ c = "none"
    rw [hstep]
    rcases houtcome : outcomes 1 with m | _ | e <;>
      simp only [Nat.zero_add, houtcome, if_pos rfl]
    · exact ⟨[], rfl, by simp⟩
    · rw [if_neg (by decide)]
      refine ⟨_, rfl, ?_⟩
      intro t c h
      simp only [List.mem_cons] at h
      rcases h with h | h
      · cases h
      · exact retryLoop_later_calls tools outcomes 2 1 (by omega) t c h
    · rw [if_neg (by decide)]
      refine ⟨_, rfl, ?_⟩
      intro t c h
      simp only [List.mem_cons] at h
      rcases h with h | h
      · cases h
      · exact retryLoop_later_calls tools outcomes 2 1 (by omega) t c h
  · intro m h1
    show getAIResponseWithRetriesLoop tools outcomes 0 (2 + 1) = _
    rw [hstep]
    simp [h1]
  · intro e₁ m h1 h2
    show getAIResponseWithRetriesLoop tools outcomes 0 (2 + 1) = _
    rw [hstep]
    simp only [h1, Nat.zero_add]
    rw [if_neg (by simp [MAX_ATTEMPTS])]
    show ((getAIResponseWithRetriesLoop tools outcomes 1 (1 + 1)).1, _) = _
    rw [hstep]
    simp [h2]
  · intro e₁ e₂ m h1 h2 h3
    show getAIResponseWithRetriesLoop tools outcomes 0 (2 + 1) = _
    rw [hstep]
    simp only [h1, Nat.zero_add]
    rw [if_neg (by simp [MAX_ATTEMPTS])]
    show ((getAIResponseWithRetriesLoop tools outcomes 1 (1 + 1)).1, _) = _
    rw [hstep]
    simp only [h2]
    rw [if_neg (by simp [MAX_ATTEMPTS])]
    show ((getAIResponseWithRetriesLoop tools outcomes 2 (0 + 1)).1, _) = _
    rw [hstep]
    simp [h3]
  · intro e₁ e₂ e₃ h1 h2 h3
    show getAIResponseWithRetriesLoop tools outcomes 0 (2 + 1) = _
    rw [hstep]
    simp only [h1, Nat.zero_add]
    rw [if_neg (by simp [MAX_ATTEMPTS])]
    show ((getAIResponseWithRetriesLoop tools outcomes 1 (1 + 1)).1, _) = _
    rw [hstep]
    simp only [h2]
    rw [if_neg (by simp [MAX_ATTEMPTS])]
    show ((getAIResponseWithRetriesLoop tools outcomes 2 (0 + 1)).1, _) = _
    rw [hstep]
    simp only [h3]
    rw [if_pos (by simp [MAX_ATTEMPTS])]
    simp

/-- Witness for C6: a provider that fails all three attempts with the same
transport error. -/
theorem getAIResponseWithRetries_spec_witness :
    getAIResponseWithRetries ["toolA"] (fun _ => .transportError "ECONNREFUSED") =
      (.error "ECONNREFUSED",
       [.call ["toolA"] "auto", .wait 500, .call [] "none",
        .wait 1000, .call [] "none"]) :=
  (getAIResponseWithRetries_spec ["toolA"]
    (fun _ => .transportError "ECONNREFUSED")).2.2.2.2.2
    "ECONNREFUSED" "ECONNREFUSED" "ECONNREFUSED" rfl rfl rfl

/-- Claim C7: a tool call whose arguments fail JSON parsing yields exactly one
tool-result message containing the parse error, the tool is not executed,
and the loop continues with the remaining tool calls unchanged. -/
theorem toolCall_parse_failure (c : ToolCallEnv) (e : String)
    (h : c.parse = .error e) :
    handleToolCall c =
      [.toolResultMsg c.toolCall.id c.toolCall.name
        (.errorPayload ("Failed to parse arguments: " ++ e))] ∧
    ((handleToolCall c).countP (fun ev => ev.isToolResultFor c.toolCall.id)) = 1 ∧
    (∀ n, GenerateEvent.toolExecuted n ∉ handleToolCall c) ∧
    (∀ pre post : List ToolCallEnv,
      handleToolCalls (pre ++ c :: post) =
        handleToolCalls pre ++ handleToolCall c ++ handleToolCalls post) := by
  have h1 : handleToolCall c =
      [.toolResultMsg c.toolCall.id c.toolCall.name
        (.errorPayload ("Failed to parse arguments: " ++ e))] := by
    unfold handleToolCall
    rw [h]
  refine ⟨h1, ?_, ?_, ?_⟩
  · rw [h1]
    simp [GenerateEvent.isToolResultFor]
  · intro n
    rw [h1]
    simp
  · intro pre post
    unfold handleToolCalls
    simp [List.flatten_append]

/-- Witness for C7 at a concrete malformed tool call. -/
theorem toolCall_parse_failure_witness :
    handleToolCall ⟨⟨"call_1", "toolA", "not json"⟩, .error "SyntaxError", .ok "r"⟩ =
      [.toolResultMsg "call_1" "toolA"
        (.errorPayload ("Failed to parse arguments: " ++ "SyntaxError"))] ∧
    handleToolCalls
        ([] ++ (⟨⟨"call_1", "toolA", "not json"⟩, .error "SyntaxError", .ok "r"⟩ : ToolCallEnv) ::
          [⟨⟨"call_2", "toolB", "rawargs"⟩, .ok (), .ok "done"⟩]) =
      handleToolCalls [] ++
        handleToolCall ⟨⟨"call_1", "toolA", "not json"⟩, .error "SyntaxError", .ok "r"⟩ ++
        handleToolCalls [⟨⟨"call_2", "toolB", "rawargs"⟩, .ok (), .ok "done"⟩] :=
  ⟨(toolCall_parse_failure ⟨⟨"call_1", "toolA", "not json"⟩, .error "SyntaxError", .ok "r"⟩
      "SyntaxError" rfl).1,
   (toolCall_parse_failure ⟨⟨"call_1", "toolA", "not json"⟩, .error "SyntaxError", .ok "r"⟩
      "SyntaxError" rfl).2.2.2 [] [⟨⟨"call_2", "toolB", "rawargs"⟩, .ok (), .ok "done"⟩]⟩

theorem foldl_providerSaveMessage (l : List Msg) :
    ∀ acc, l.foldl providerSaveMessage acc = acc ++ l := by
  induction l with
  | nil => intro acc; simp
  | cons m t ih =>
      intro acc
      simp only [List.foldl_cons, providerSaveMessage, ih]
      simp

theorem serializeSession_history (sessionId historyBackend : String)
    (store : List Msg) :
    (serializeSession sessionId true historyBackend true true store store).conversationHistory
      = store := by
  unfold serializeSession providerGetHistory
  rw [if_pos ⟨rfl, rfl, rfl⟩]
  by_cases h : store = []
  · subst h
    simp
  · simp [h]

/-- Claim C3: serializing a session that has a history provider and then
deserializing the record reproduces the transcript exactly — same messages,
same order, same roles, same tool-call associations — both in the history
store and in the restored context manager.  The hypothesis `cm = store` is
the spec's TranscriptInvariant (§3) for the original session. -/
theorem serialize_deserialize_roundtrip (sessionId historyBackend : String)
    (store cm : List Msg) (hcm : cm = store) :
    deserializeStore
      (serializeSession sessionId true historyBackend true true store cm)
      store true = store ∧
    deserializeContextMessages
      (serializeSession sessionId true historyBackend true true store cm)
      (deserializeStore
        (serializeSession sessionId true historyBackend true true store cm)
        store true) true = store := by
  subst cm
  have hh := serializeSession_history sessionId historyBackend store
  constructor
  · unfold deserializeStore
    rw [hh]
    by_cases h : store = []
    · rw [if_neg (by simp [h])]
    · rw [if_pos ⟨h, rfl⟩, foldl_providerSaveMessage]
      simp [providerClearHistory]
  · unfold deserializeContextMessages
    rw [hh]
    by_cases h : store = []
    · rw [if_neg (by simp [h])]
      exact h.symm
    · rw [if_pos h]
      unfold refreshedContextMessages providerGetHistory
      rw [if_pos rfl]
      unfold deserializeStore
      rw [hh, if_pos ⟨h, rfl⟩, foldl_providerSaveMessage]
      simp [providerClearHistory]

/-- Witness for C3: a three-message transcript (user, assistant with a tool
call, tool result) survives the round trip. -/
theorem serialize_deserialize_roundtrip_witness :
    deserializeStore
      (serializeSession "s1" true "database" true true
        [⟨.user, "hi", [], none, none⟩,
         ⟨.assistant, "ok", [⟨"c1", "t", "rawargs"⟩], none, none⟩,
         ⟨.tool, "res", [], some "c1", some "t"⟩]
        [⟨.user, "hi", [], none, none⟩,
         ⟨.assistant, "ok", [⟨"c1", "t", "rawargs"⟩], none, none⟩,
         ⟨.tool, "res", [], some "c1", some "t"⟩])
      [⟨.user, "hi", [], none, none⟩,
       ⟨.assistant, "ok", [⟨"c1", "t", "rawargs"⟩], none, none⟩,
       ⟨.tool, "res", [], some "c1", some "t"⟩] true =
    [⟨.user, "hi", [], none, none⟩,
     ⟨.assistant, "ok", [⟨"c1", "t", "rawargs"⟩], none, none⟩,
     ⟨.tool, "res", [], some "c1", some "t"⟩] :=
  (serialize_deserialize_roundtrip "s1" "database"
    [⟨.user, "hi", [], none, none⟩,
     ⟨.assistant, "ok", [⟨"c1", "t", "rawargs"⟩], none, none⟩,
     ⟨.tool, "res", [], some "c1", some "t"⟩]
    [⟨.user, "hi", [], none, none⟩,
     ⟨.assistant, "ok", [⟨"c1", "t", "rawargs"⟩], none, none⟩,
     ⟨.tool, "res", [], some "c1", some "t"⟩] rfl).1

theorem backgroundOperations_true (e₁ e₂ : Bool) (body : Except String Unit) :
    backgroundOperations e₁ e₂ body = true := by
  unfold backgroundOperations
  split
  · rfl
  · cases body <;> rfl

/-- Claim C8: for every successful `run()`, the background promise resolves
(never rejects), and neither the returned response nor the caller is
affected by a failure of the background memory or reflection work. -/
theorem runSession_background_resolves (llmResponse : String) (e₁ e₂ : Bool)
    (memoryBody : Except String Unit) :
    (runSession llmResponse e₁ e₂ memoryBody).2 = true ∧
    (runSession llmResponse e₁ e₂ memoryBody).1 = llmResponse ∧
    ∀ memoryBody', runSession llmResponse e₁ e₂ memoryBody =
      runSession llmResponse e₁ e₂ memoryBody' := by
  refine ⟨backgroundOperations_true e₁ e₂ memoryBody, rfl, ?_⟩
  intro body'
  unfold runSession
  rw [backgroundOperations_true, backgroundOperations_true]

end Matrix
